import Mathlib

/-!
# Verification of the cbor2 streaming container writer (src/cbor2/stream.py)

A shallow embedding of the scoped container-writer protocol: the sink is an
append-only trace of primitive-encoder events; each writer method is a pure
function from (capacity, trace) to (capacity, trace, result).  Python's
`None`-able lengths/capacities are `Option Int`; exceptions are the `PyErr`
side of an `Except`-style result carried next to the (persisting) trace.
-/

namespace Cbor2

/-- One call observed at the PrimitiveEncoder boundary, in sink order.
`encode v` is `encoder.encode(v)`; `defHeader t n` is
`encoder.write(encode_length(t, n))`; `indefStart t` is
`encode_indefinite(encoder, t)`; `breakTok` is `encode_break(encoder)`. -/
inductive Event (α : Type) where
  | encode : α → Event α
  | defHeader : Nat → Int → Event α
  | indefStart : Nat → Event α
  | breakTok : Event α
deriving DecidableEq, Repr

/-- The append-only sink: the sequence of encoder calls made so far. -/
abbrev Trace (α : Type) := List (Event α)

/-- Python exceptions raised by the stream writer layer. -/
inductive PyErr where
  | valueError : String → PyErr
  | cborWriterError : String → PyErr
  | typeError : String → PyErr
deriving DecidableEq, Repr

/-- The `length` argument accepted by `array`/`map`: Python `None`, an
`Integral` value, or any other object (`nonIntegral`). -/
inductive LengthArg where
  | noneArg : LengthArg
  | intVal : Int → LengthArg
  | nonIntegral : LengthArg
deriving DecidableEq, Repr

/-- `_CBORContainerWriterContextManager` state after a successful `__init__`:
the container's major tag and validated length (`none` = indefinite). -/
structure CtxMgr where
  majorTag : Nat
  length : Option Int
deriving DecidableEq, Repr

/-- `_CBORContainerWriterContextManager.__init__`: rejects a non-`Integral`,
non-`None` length, then rejects a negative length, both with the same
`ValueError`; otherwise stores the tag and length. -/
def ctxInit (majorTag : Nat) (length : LengthArg) : Except PyErr CtxMgr :=
  match length with
  | .nonIntegral =>
      .error (.valueError "Length can be either a positive integral value or None")
  | .intVal n =>
      if n < 0 then
        .error (.valueError "Length can be either a positive integral value or None")
      else
        .ok ⟨majorTag, some n⟩
  | .noneArg => .ok ⟨majorTag, none⟩

/-- `_CBORContainerWriterContextManager.__enter__`: emits the indefinite
start marker or the definite-length header, and yields the nested writer,
whose `capacity` was initialised from the same length. -/
def ctxEnter {α : Type} (c : CtxMgr) (tr : Trace α) : Trace α × Option Int :=
  match c.length with
  | none => (tr ++ [Event.indefStart c.majorTag], none)
  | some n => (tr ++ [Event.defHeader c.majorTag n], some n)

/-- `_CBORContainerWriterContextManager.__exit__`: ignores the exception
info (`*args, **kwargs`); for an indefinite container unconditionally emits
the break token; for a definite container emits nothing and checks the
writer's remaining `capacity`, raising `CBORWriterError` if it is still
positive.  (`excInfo` is the exception, if any, with which the scope body
terminated; the method receives it and never looks at it.  The `none`
capacity branch under a definite length models Python 3's `TypeError` on
`None > 0`; it is unreachable, since a definite scope's writer always
carries an integer capacity.) -/
def ctxExit {α : Type} (c : CtxMgr) (excInfo : Option PyErr)
    (writerCap : Option Int) (tr : Trace α) : Trace α × Except PyErr Unit :=
  match excInfo, c.length with
  | _, none => (tr ++ [Event.breakTok], .ok ())
  | _, some _ =>
    match writerCap with
    | some cap =>
        if cap > 0 then
          (tr, .error (.cborWriterError "Insufficient number of values written out"))
        else
          (tr, .ok ())
    | none =>
        (tr, .error (.typeError "unsupported comparison between NoneType and int"))

/-- `CBORArrayWriter.__init__`: `self.capacity = length`. -/
def arrayWriterInit (length : Option Int) : Option Int := length

/-- `CBORMapWriter.__init__`: `self.capacity = length`. -/
def mapWriterInit (length : Option Int) : Option Int := length

/-- `CBORArrayWriter._commit_element`: no-op when unbounded; raises
`CBORWriterError` when `capacity <= 0`; otherwise decrements. -/
def commitElementArray (cap : Option Int) : Except PyErr (Option Int) :=
  match cap with
  | none => .ok none
  | some c =>
      if c ≤ 0 then
        .error (.cborWriterError "Exceeded the requested array element count")
      else
        .ok (some (c - 1))

/-- `CBORMapWriter._commit_element`: no-op when unbounded; raises
`CBORWriterError` when `not self.capacity` (i.e. capacity equals zero);
otherwise decrements. -/
def commitElementMap (cap : Option Int) : Except PyErr (Option Int) :=
  match cap with
  | none => .ok none
  | some c =>
      if c = 0 then
        .error (.cborWriterError "Exceeded the requested map element count")
      else
        .ok (some (c - 1))

/-- `CBORArrayWriter.write(value)`: commit one element, then
`encoder.encode(value)`.  Returns the writer's capacity, the sink trace,
and the outcome; on failure capacity and trace are untouched. -/
def arrayWriterWrite {α : Type} (cap : Option Int) (v : α) (tr : Trace α) :
    Option Int × Trace α × Except PyErr Unit :=
  match commitElementArray cap with
  | .error e => (cap, tr, .error e)
  | .ok cap' => (cap', tr ++ [Event.encode v], .ok ())

/-- `CBORArrayWriter.array(length)`: commit one element, then build the
nested context manager (validated in its `__init__`); the nested header is
only emitted later by `__enter__`. -/
def arrayWriterArray {α : Type} (cap : Option Int) (la : LengthArg)
    (tr : Trace α) : Option Int × Trace α × Except PyErr CtxMgr :=
  match commitElementArray cap with
  | .error e => (cap, tr, .error e)
  | .ok cap' => (cap', tr, ctxInit 0x80 la)

/-- `CBORArrayWriter.map(length)`: commit one element, then build the
nested map context manager. -/
def arrayWriterMap {α : Type} (cap : Option Int) (la : LengthArg)
    (tr : Trace α) : Option Int × Trace α × Except PyErr CtxMgr :=
  match commitElementArray cap with
  | .error e => (cap, tr, .error e)
  | .ok cap' => (cap', tr, ctxInit 0xA0 la)

/-- `CBORMapWriter.write(key, value)`: commit one pair, then encode the key
and the value as two sequential encoder calls. -/
def mapWriterWrite {α : Type} (cap : Option Int) (k v : α) (tr : Trace α) :
    Option Int × Trace α × Except PyErr Unit :=
  match commitElementMap cap with
  | .error e => (cap, tr, .error e)
  | .ok cap' => (cap', tr ++ [Event.encode k, Event.encode v], .ok ())

/-- `CBORMapWriter.array(key, length)`: commit one pair, encode the key,
then build the nested array context manager (whose `__init__` validates
`length` only after the key has already reached the sink). -/
def mapWriterArray {α : Type} (cap : Option Int) (k : α) (la : LengthArg)
    (tr : Trace α) : Option Int × Trace α × Except PyErr CtxMgr :=
  match commitElementMap cap with
  | .error e => (cap, tr, .error e)
  | .ok cap' => (cap', tr ++ [Event.encode k], ctxInit 0x80 la)

/-- `CBORMapWriter.map(key, length)`: commit one pair, encode the key, then
build the nested map context manager. -/
def mapWriterMap {α : Type} (cap : Option Int) (k : α) (la : LengthArg)
    (tr : Trace α) : Option Int × Trace α × Except PyErr CtxMgr :=
  match commitElementMap cap with
  | .error e => (cap, tr, .error e)
  | .ok cap' => (cap', tr ++ [Event.encode k], ctxInit 0xA0 la)

/-- `CBORWriter.write(value)`: encode the value, no capacity accounting. -/
def writerWrite {α : Type} (v : α) (tr : Trace α) : Trace α :=
  tr ++ [Event.encode v]

/-- `CBORWriter.array(length)`: build the array context manager (writes
nothing to the sink itself). -/
def writerArray (la : LengthArg) : Except PyErr CtxMgr :=
  ctxInit 0x80 la

/-- `CBORWriter.map(length)`: build the map context manager. -/
def writerMap (la : LengthArg) : Except PyErr CtxMgr :=
  ctxInit 0xA0 la

/-- Sequence of `CBORArrayWriter.write` calls, stopping at the first
exception (which propagates out of the scope body). -/
def writeAllArray {α : Type} (cap : Option Int) (vs : List α) (tr : Trace α) :
    Option Int × Trace α × Except PyErr Unit :=
  match vs with
  | [] => (cap, tr, .ok ())
  | v :: rest =>
    match arrayWriterWrite cap v tr with
    | (cap', tr', .error e) => (cap', tr', .error e)
    | (cap', tr', .ok _) => writeAllArray cap' rest tr'

/-- Sequence of `CBORMapWriter.write` calls, stopping at the first
exception. -/
def writeAllMap {α : Type} (cap : Option Int) (ps : List (α × α))
    (tr : Trace α) : Option Int × Trace α × Except PyErr Unit :=
  match ps with
  | [] => (cap, tr, .ok ())
  | p :: rest =>
    match mapWriterWrite cap p.1 p.2 tr with
    | (cap', tr', .error e) => (cap', tr', .error e)
    | (cap', tr', .ok _) => writeAllMap cap' rest tr'

/-- A `with writer.array(length) as a:` block around `body`: build the
context manager, enter (emitting the header), run the body, then always run
`__exit__` (Python runs it on every exit path, passing the body's exception
info, which `__exit__` ignores and never suppresses).  An exception raised
by `__exit__` itself replaces the body's. -/
def withWriterArray {α : Type} (la : LengthArg)
    (body : Option Int → Trace α → Option Int × Trace α × Except PyErr Unit)
    (tr : Trace α) : Trace α × Except PyErr Unit :=
  match writerArray la with
  | .error e => (tr, .error e)
  | .ok ctx =>
    let enter := ctxEnter ctx tr
    let ran := body enter.2 enter.1
    let excInfo : Option PyErr :=
      match ran.2.2 with
      | .ok _ => none
      | .error e => some e
    let exited := ctxExit ctx excInfo ran.1 ran.2.1
    match exited.2 with
    | .error e => (exited.1, .error e)
    | .ok _ => (exited.1, ran.2.2)

/-- Repeated `_commit_element` attempts on a `CBORArrayWriter`; a failed
attempt raises and leaves `capacity` untouched, so later attempts see the
same value. -/
def commitManyArray : Nat → Option Int → Option Int
  | 0, cap => cap
  | Nat.succ k, cap =>
    match commitElementArray cap with
    | .ok cap' => commitManyArray k cap'
    | .error _ => commitManyArray k cap

/-- Repeated `_commit_element` attempts on a `CBORMapWriter`. -/
def commitManyMap : Nat → Option Int → Option Int
  | 0, cap => cap
  | Nat.succ k, cap =>
    match commitElementMap cap with
    | .ok cap' => commitManyMap k cap'
    | .error _ => commitManyMap k cap

/-- The header event `__enter__` emits for a validated context manager. -/
def headerEventOf {α : Type} (c : CtxMgr) : Event α :=
  match c.length with
  | none => Event.indefStart c.majorTag
  | some n => Event.defHeader c.majorTag n

/-- A `length` argument the validation in
`_CBORContainerWriterContextManager.__init__` rejects: not an integer, or a
negative integer. -/
def InvalidLength (la : LengthArg) : Prop :=
  la = LengthArg.nonIntegral ∨ ∃ n : Int, la = LengthArg.intVal n ∧ n < 0

/-- The flat alternating key/value event sequence for a list of pairs. -/
def pairsTrace {α : Type} (ps : List (α × α)) : Trace α :=
  ps.foldr (fun p acc => Event.encode p.1 :: Event.encode p.2 :: acc) []

/-- The `ValueError` raised for an invalid `length` argument. -/
def lenErr : PyErr :=
  PyErr.valueError "Length can be either a positive integral value or None"

/-- The `CBORWriterError` raised by `CBORArrayWriter._commit_element`. -/
def arrayFullErr : PyErr :=
  PyErr.cborWriterError "Exceeded the requested array element count"

/-- The `CBORWriterError` raised by `CBORMapWriter._commit_element`. -/
def mapFullErr : PyErr :=
  PyErr.cborWriterError "Exceeded the requested map element count"

/-- The `CBORWriterError` raised by `__exit__` of an under-filled definite
scope. -/
def underfullErr : PyErr :=
  PyErr.cborWriterError "Insufficient number of values written out"

lemma ctxInit_invalid {t : Nat} {la : LengthArg} (h : InvalidLength la) :
    ctxInit t la = Except.error lenErr := by
  rcases h with h | ⟨n, h, hn⟩
  · subst h; rfl
  · subst h
    simp [ctxInit, hn, lenErr]

lemma commitElementArray_ok {c : Int} {cap' : Option Int}
    (h : commitElementArray (some c) = Except.ok cap') :
    0 < c ∧ cap' = some (c - 1) := by
  by_cases hc : c ≤ 0
  · simp [commitElementArray, hc] at h
  · simp [commitElementArray, hc] at h
    exact ⟨by omega, h.symm⟩

lemma commitElementMap_ok {c : Int} {cap' : Option Int}
    (h : commitElementMap (some c) = Except.ok cap') :
    c ≠ 0 ∧ cap' = some (c - 1) := by
  by_cases hc : c = 0
  · simp [commitElementMap, hc] at h
  · simp [commitElementMap, hc] at h
    exact ⟨hc, h.symm⟩

lemma commitElementArray_pos {c : Int} (hc : 0 < c) :
    commitElementArray (some c) = Except.ok (some (c - 1)) := by
  simp [commitElementArray]
  omega

lemma commitElementMap_pos {c : Int} (hc : 0 < c) :
    commitElementMap (some c) = Except.ok (some (c - 1)) := by
  have : c ≠ 0 := by omega
  simp [commitElementMap, this]

/-- Claim C3: exiting a `Definite(n)` scope with the capacity counter still
positive raises `CBORWriterError("Insufficient number of values written
out")` and appends nothing to the sink; exiting with the counter exactly
zero succeeds and appends nothing — definite containers get no terminator.
Both hold on every exit path (any `excInfo`). -/
theorem definite_exit_capacity_check (tag : Nat) (n : Int) (exc : Option PyErr)
    (cap : Int) (tr : Trace Int) :
    (0 < cap →
      ctxExit ⟨tag, some n⟩ exc (some cap) tr = (tr, Except.error underfullErr)) ∧
    (cap = 0 →
      ctxExit ⟨tag, some n⟩ exc (some cap) tr = (tr, Except.ok ())) := by
  constructor
  · intro h
    cases exc <;> simp [ctxExit, h, underfullErr]
  · intro h
    subst h
    cases exc <;> simp [ctxExit]

theorem definite_exit_capacity_check_witness :
    ctxExit (⟨0x80, some 2⟩ : CtxMgr) none (some 1) ([] : Trace Int) =
      ([], Except.error underfullErr) ∧
    ctxExit (⟨0x80, some 2⟩ : CtxMgr) none (some 0) ([] : Trace Int) =
      ([], Except.ok ()) :=
  ⟨(definite_exit_capacity_check 0x80 2 none 1 []).1 (by norm_num),
   (definite_exit_capacity_check 0x80 2 none 0 []).2 rfl⟩

/-- Claim C4: exiting an `Indefinite` scope appends exactly one break token
and succeeds, on every exit path — for any exception info from the scope
body and any number of commits made (any remaining writer capacity). -/
theorem indefinite_exit_always_emits_break (tag : Nat) (exc : Option PyErr)
    (cap : Option Int) (tr : Trace Int) :
    ctxExit ⟨tag, none⟩ exc cap tr = (tr ++ [Event.breakTok], Except.ok ()) := by
  cases exc <;> rfl

/-- Claim C7: a `with CBORWriter(e).array() as a:` block writing 1, 2, 3, 4
produces exactly: indefinite-start marker for Array (tag 0x80), encode(1),
encode(2), encode(3), encode(4), break token — in that order and nothing
else. -/
theorem indefinite_array_1234_trace :
    withWriterArray (α := Int) LengthArg.noneArg
      (fun cap tr => writeAllArray cap [1, 2, 3, 4] tr) [] =
    ([Event.indefStart 0x80, Event.encode 1, Event.encode 2, Event.encode 3,
      Event.encode 4, Event.breakTok], Except.ok ()) := by
  rfl

/-- Claim C5: on a bounded scope whose capacity counter is zero, every
`write`/`array`/`map` call on the array or map writer fails with the
capacity-exceeded `CBORWriterError`, leaving both the sink trace and the
counter unchanged; on a bounded scope with positive capacity a `write`
decrements the counter by exactly one, and on an unbounded scope the
counter stays `None`. -/
theorem commit_at_zero_capacity_rejects (v k : Int) (la : LengthArg)
    (tr : Trace Int) :
    arrayWriterWrite (some 0) v tr = (some 0, tr, Except.error arrayFullErr) ∧
    arrayWriterArray (some 0) la tr = (some 0, tr, Except.error arrayFullErr) ∧
    arrayWriterMap (some 0) la tr = (some 0, tr, Except.error arrayFullErr) ∧
    mapWriterWrite (some 0) k v tr = (some 0, tr, Except.error mapFullErr) ∧
    mapWriterArray (some 0) k la tr = (some 0, tr, Except.error mapFullErr) ∧
    mapWriterMap (some 0) k la tr = (some 0, tr, Except.error mapFullErr) ∧
    (∀ c : Int, 0 < c →
      arrayWriterWrite (some c) v tr =
        (some (c - 1), tr ++ [Event.encode v], Except.ok ()) ∧
      mapWriterWrite (some c) k v tr =
        (some (c - 1), tr ++ [Event.encode k, Event.encode v], Except.ok ())) ∧
    arrayWriterWrite none v tr = (none, tr ++ [Event.encode v], Except.ok ()) ∧
    mapWriterWrite none k v tr =
      (none, tr ++ [Event.encode k, Event.encode v], Except.ok ()) := by
  refine ⟨rfl, rfl, rfl, rfl, rfl, rfl, ?_, rfl, rfl⟩
  intro c hc
  constructor
  · simp [arrayWriterWrite, commitElementArray_pos hc]
  · simp [mapWriterWrite, commitElementMap_pos hc]

theorem commit_at_zero_capacity_rejects_witness :
    arrayWriterWrite (some 0) (5 : Int) [] = (some 0, [], Except.error arrayFullErr) ∧
    arrayWriterWrite (some 2) (5 : Int) [] =
      (some 1, [Event.encode 5], Except.ok ()) :=
  ⟨(commit_at_zero_capacity_rejects 5 7 LengthArg.noneArg []).1,
   ((commit_at_zero_capacity_rejects 5 7 LengthArg.noneArg []).2.2.2.2.2.2.1
      2 (by norm_num)).1⟩

/-- Claim C6: a nested `array`/`map` call inside a bounded parent scope
consumes exactly one parent capacity slot, irrespective of the nested
container's declared length argument, and does so before the nested header
reaches the sink — at the call's return the trace holds no header (only the
key, for a map parent), and the header is appended only when the returned
scope is entered. -/
theorem nested_call_consumes_one_parent_slot (c : Int) (hc : 0 < c)
    (la : LengthArg) (k : Int) (tr trEnter : Trace Int) (m : CtxMgr) :
    arrayWriterArray (some c) la tr = (some (c - 1), tr, ctxInit 0x80 la) ∧
    arrayWriterMap (some c) la tr = (some (c - 1), tr, ctxInit 0xA0 la) ∧
    mapWriterArray (some c) k la tr =
      (some (c - 1), tr ++ [Event.encode k], ctxInit 0x80 la) ∧
    mapWriterMap (some c) k la tr =
      (some (c - 1), tr ++ [Event.encode k], ctxInit 0xA0 la) ∧
    (ctxEnter m trEnter).1 = trEnter ++ [headerEventOf m] := by
  refine ⟨?_, ?_, ?_, ?_, ?_⟩
  · simp [arrayWriterArray, commitElementArray_pos hc]
  · simp [arrayWriterMap, commitElementArray_pos hc]
  · simp [mapWriterArray, commitElementMap_pos hc]
  · simp [mapWriterMap, commitElementMap_pos hc]
  · cases m with
    | mk t l => cases l <;> rfl

theorem nested_call_consumes_one_parent_slot_witness :
    arrayWriterArray (α := Int) (some 2) (LengthArg.intVal 9) [] =
      (some 1, [], ctxInit 0x80 (LengthArg.intVal 9)) ∧
    (ctxEnter (⟨0x80, some 9⟩ : CtxMgr) ([] : Trace Int)).1 =
      [] ++ [headerEventOf ⟨0x80, some 9⟩] :=
  ⟨(nested_call_consumes_one_parent_slot 2 (by norm_num) (LengthArg.intVal 9)
      0 [] [] ⟨0x80, some 9⟩).1,
   (nested_call_consumes_one_parent_slot 2 (by norm_num) (LengthArg.intVal 9)
      0 [] [] ⟨0x80, some 9⟩).2.2.2.2⟩

/-- Claim C8: a sequence of `CBORMapWriter.write(key, value)` calls on an
open map scope appends exactly the flat alternating key/value event
sequence in submission order — each write is encode(key) immediately
followed by encode(value), with no delimiter, no sorting and no
deduplication — both on an unbounded scope and on a bounded scope with
sufficient capacity. -/
theorem map_write_preserves_submission_order (ps : List (Int × Int))
    (tr : Trace Int) :
    writeAllMap none ps tr = (none, tr ++ pairsTrace ps, Except.ok ()) ∧
    (∀ c : Int, (ps.length : Int) ≤ c →
      writeAllMap (some c) ps tr =
        (some (c - ps.length), tr ++ pairsTrace ps, Except.ok ())) := by
  induction ps generalizing tr with
  | nil =>
    constructor
    · simp [writeAllMap, pairsTrace]
    · intro c _
      simp [writeAllMap, pairsTrace]
  | cons p rest ih =>
    constructor
    · have step : writeAllMap (α := Int) none (p :: rest) tr =
          writeAllMap none rest (tr ++ [Event.encode p.1, Event.encode p.2]) := rfl
      rw [step, (ih (tr ++ [Event.encode p.1, Event.encode p.2])).1]
      simp [pairsTrace]
    · intro c hcap
      have hc : 0 < c := by
        have : (0 : Int) < (rest.length : Int) + 1 := by positivity
        simp only [List.length_cons] at hcap
        push_cast at hcap
        omega
      have step : writeAllMap (some c) (p :: rest) tr =
          writeAllMap (some (c - 1)) rest
            (tr ++ [Event.encode p.1, Event.encode p.2]) := by
        simp [writeAllMap, mapWriterWrite, commitElementMap_pos hc]
      rw [step,
        (ih (tr ++ [Event.encode p.1, Event.encode p.2])).2 (c - 1)
          (by simp only [List.length_cons] at hcap; push_cast at hcap ⊢; omega)]
      have : c - 1 - (rest.length : Int) = c - ((p :: rest).length : Int) := by
        simp only [List.length_cons]
        push_cast
        ring
      rw [this]
      simp [pairsTrace]

theorem map_write_preserves_submission_order_witness :
    writeAllMap (some 2) [((0 : Int), (1 : Int)), (2, 3)] [] =
      (some 0, [Event.encode 0, Event.encode 1, Event.encode 2, Event.encode 3],
        Except.ok ()) := by
  have h := (map_write_preserves_submission_order [(0, 1), (2, 3)] []).2 2
    (by norm_num)
  simpa [pairsTrace] using h

lemma commitManyArray_nonneg (k : Nat) : ∀ n : Int, 0 ≤ n →
    ∃ m : Int, commitManyArray k (some n) = some m ∧ 0 ≤ m := by
  induction k with
  | zero =>
    intro n hn
    exact ⟨n, rfl, hn⟩
  | succ k ih =>
    intro n hn
    by_cases h : n ≤ 0
    · have hn0 : n = 0 := le_antisymm h hn
      subst hn0
      have step : commitManyArray (k + 1) (some 0) = commitManyArray k (some 0) := by
        simp [commitManyArray, commitElementArray]
      rw [step]
      exact ih 0 le_rfl
    · have step : commitManyArray (k + 1) (some n) = commitManyArray k (some (n - 1)) := by
        simp [commitManyArray, commitElementArray_pos (by omega : (0 : Int) < n)]
      rw [step]
      exact ih (n - 1) (by omega)

lemma commitManyMap_nonneg (k : Nat) : ∀ n : Int, 0 ≤ n →
    ∃ m : Int, commitManyMap k (some n) = some m ∧ 0 ≤ m := by
  induction k with
  | zero =>
    intro n hn
    exact ⟨n, rfl, hn⟩
  | succ k ih =>
    intro n hn
    by_cases h : n = 0
    · subst h
      have step : commitManyMap (k + 1) (some 0) = commitManyMap k (some 0) := by
        simp [commitManyMap, commitElementMap]
      rw [step]
      exact ih 0 le_rfl
    · have step : commitManyMap (k + 1) (some n) = commitManyMap k (some (n - 1)) := by
        simp [commitManyMap, commitElementMap_pos (by omega : (0 : Int) < n)]
      rw [step]
      exact ih (n - 1) (by omega)

/-- Claim C9: for a `Definite(n)` array or map writer the capacity counter
is initialised to n, a successful commit decrements it by exactly one, a
commit's success always leaves it non-negative, and any sequence of commit
attempts starting from a non-negative counter keeps it non-negative. -/
theorem capacity_counter_invariant :
    (∀ n : Int, arrayWriterInit (some n) = some n ∧ mapWriterInit (some n) = some n) ∧
    (∀ c : Int, 0 < c →
      commitElementArray (some c) = Except.ok (some (c - 1)) ∧
      commitElementMap (some c) = Except.ok (some (c - 1))) ∧
    (∀ c : Int, 0 ≤ c → ∀ cap' : Option Int,
      commitElementArray (some c) = Except.ok cap' ∨
        commitElementMap (some c) = Except.ok cap' →
      ∃ m : Int, cap' = some m ∧ 0 ≤ m) ∧
    (∀ k : Nat, ∀ n : Int, 0 ≤ n →
      (∃ m : Int, commitManyArray k (some n) = some m ∧ 0 ≤ m) ∧
      (∃ m : Int, commitManyMap k (some n) = some m ∧ 0 ≤ m)) := by
  refine ⟨fun n => ⟨rfl, rfl⟩, ?_, ?_, ?_⟩
  · intro c hc
    exact ⟨commitElementArray_pos hc, commitElementMap_pos hc⟩
  · intro c hc cap' hok
    rcases hok with h | h
    · obtain ⟨hpos, rfl⟩ := commitElementArray_ok h
      exact ⟨c - 1, rfl, by omega⟩
    · obtain ⟨hne, rfl⟩ := commitElementMap_ok h
      exact ⟨c - 1, rfl, by omega⟩
  · intro k n hn
    exact ⟨commitManyArray_nonneg k n hn, commitManyMap_nonneg k n hn⟩

theorem capacity_counter_invariant_witness :
    commitElementArray (some 3) = Except.ok (some 2) ∧
    (∃ m : Int, commitManyMap 5 (some 2) = some m ∧ 0 ≤ m) :=
  ⟨by simpa using (capacity_counter_invariant.2.1 3 (by norm_num)).1,
   (capacity_counter_invariant.2.2.2 5 2 (by norm_num)).2⟩

/-- Claim C1 counterexample: `CBORMapWriter.array(key, length=-1)` on an
open map with capacity 1 commits the pair slot and encodes the key to the
sink before the invalid length raises `ValueError` — the failing call has
written bytes (the key), contradicting "writes nothing, not even the
key". -/
theorem mapWriter_invalid_length_writes_key :
    mapWriterArray (α := Int) (some 1) 0 (LengthArg.intVal (-1)) [] =
      (some 0, [Event.encode 0], Except.error lenErr) ∧
    ([Event.encode (0 : Int)] : Trace Int) ≠ [] := by
  constructor
  · rfl
  · simp

/-- Claim C1 amended: an invalid (negative or non-integral) length makes
every `array`/`map` call fail with the `ValueError`; on `CBORWriter` and
`CBORArrayWriter` nothing is written to the sink before the failure, but on
`CBORMapWriter` the pair slot is committed and the key is encoded to the
sink before the length is validated. -/
theorem invalid_length_failure_points (la : LengthArg) (hla : InvalidLength la)
    (k : Int) (tr : Trace Int) (c : Int) (hc : 0 < c) :
    writerArray la = Except.error lenErr ∧
    writerMap la = Except.error lenErr ∧
    arrayWriterArray (α := Int) none la tr = (none, tr, Except.error lenErr) ∧
    arrayWriterArray (some c) la tr = (some (c - 1), tr, Except.error lenErr) ∧
    arrayWriterMap (α := Int) none la tr = (none, tr, Except.error lenErr) ∧
    arrayWriterMap (some c) la tr = (some (c - 1), tr, Except.error lenErr) ∧
    mapWriterArray none k la tr =
      (none, tr ++ [Event.encode k], Except.error lenErr) ∧
    mapWriterArray (some c) k la tr =
      (some (c - 1), tr ++ [Event.encode k], Except.error lenErr) ∧
    mapWriterMap none k la tr =
      (none, tr ++ [Event.encode k], Except.error lenErr) ∧
    mapWriterMap (some c) k la tr =
      (some (c - 1), tr ++ [Event.encode k], Except.error lenErr) := by
  have hinit80 : ctxInit 0x80 la = Except.error lenErr := ctxInit_invalid hla
  have hinitA0 : ctxInit 0xA0 la = Except.error lenErr := ctxInit_invalid hla
  have h1 : ¬ c ≤ 0 := by omega
  have h2 : c ≠ 0 := by omega
  refine ⟨hinit80, hinitA0, ?_, ?_, ?_, ?_, ?_, ?_, ?_, ?_⟩ <;>
    simp [arrayWriterArray, arrayWriterMap, mapWriterArray, mapWriterMap,
      commitElementArray, commitElementMap, h1, h2, hinit80, hinitA0]

theorem invalid_length_failure_points_witness :
    writerArray (LengthArg.intVal (-1)) = Except.error lenErr ∧
    arrayWriterArray (α := Int) (some 1) (LengthArg.intVal (-1)) [] =
      (some 0, [], Except.error lenErr) :=
  ⟨(invalid_length_failure_points (LengthArg.intVal (-1))
      (Or.inr ⟨-1, rfl, by norm_num⟩) 0 [] 1 (by norm_num)).1,
   by
    have h := (invalid_length_failure_points (LengthArg.intVal (-1))
      (Or.inr ⟨-1, rfl, by norm_num⟩) 0 [] 1 (by norm_num)).2.2.2.1
    simpa using h⟩

/-- The Python session `ctx = CBORWriter(e).array(length=None)`;
`a = ctx.__enter__()`; `a.write(1)`; `ctx.__exit__(None, None, None)`;
`a.write(2)` — an operation on the nested writer after its scope has
exited. -/
def postCloseSession : Option Int × Trace Int × Except PyErr Unit :=
  match writerArray LengthArg.noneArg with
  | .error e => (none, [], .error e)
  | .ok ctx =>
    let entered := ctxEnter (α := Int) ctx []
    let w1 := arrayWriterWrite entered.2 (1 : Int) entered.1
    let exited := ctxExit ctx none w1.1 w1.2.1
    arrayWriterWrite w1.1 (2 : Int) exited.1

/-- Claim C2 counterexample: after the indefinite-array scope has exited
(break token emitted), a further `write(2)` on the same writer succeeds
with no error at all — it appends `encode(2)` to the sink after the
terminator, instead of failing with a "writer is closed" error (no such
state or error exists in the code). -/
theorem post_close_write_succeeds :
    postCloseSession =
      (none, [Event.indefStart 0x80, Event.encode 1, Event.breakTok,
        Event.encode 2], Except.ok ()) := by
  rfl

/-- Claim C2 amended: no closed state is tracked — scope exit does not
disable the nested writer.  A post-exit `write` on an indefinite scope
succeeds and appends bytes after the terminator; a post-exit `write` on an
exhausted definite scope fails with the capacity-exceeded
`CBORWriterError`, not with any "writer is closed" error. -/
theorem no_closed_state_tracked (v : Int) (tr : Trace Int) :
    postCloseSession.2.2 = Except.ok () ∧
    postCloseSession.2.1 =
      [Event.indefStart 0x80, Event.encode 1, Event.breakTok, Event.encode 2] ∧
    arrayWriterWrite (some 0) v tr = (some 0, tr, Except.error arrayFullErr) := by
  exact ⟨rfl, rfl, rfl⟩

/-- Claim C10: when a nested `array`/`map` call on a bounded array or map
writer fails because the supplied length is invalid, the parent's capacity
counter has already been decremented by one — the failing call is not
atomic with respect to the parent's capacity. -/
theorem nested_invalid_length_decrements_parent (c : Int) (hc : 0 < c)
    (la : LengthArg) (hla : InvalidLength la) (k : Int) (tr : Trace Int) :
    (arrayWriterArray (α := Int) (some c) la tr).1 = some (c - 1) ∧
    (arrayWriterArray (α := Int) (some c) la tr).2.2 = Except.error lenErr ∧
    (arrayWriterMap (α := Int) (some c) la tr).1 = some (c - 1) ∧
    (arrayWriterMap (α := Int) (some c) la tr).2.2 = Except.error lenErr ∧
    (mapWriterArray (some c) k la tr).1 = some (c - 1) ∧
    (mapWriterArray (some c) k la tr).2.2 = Except.error lenErr ∧
    (mapWriterMap (some c) k la tr).1 = some (c - 1) ∧
    (mapWriterMap (some c) k la tr).2.2 = Except.error lenErr := by
  have hinit80 : ctxInit 0x80 la = Except.error lenErr := ctxInit_invalid hla
  have hinitA0 : ctxInit 0xA0 la = Except.error lenErr := ctxInit_invalid hla
  refine ⟨?_, ?_, ?_, ?_, ?_, ?_, ?_, ?_⟩ <;>
    simp [arrayWriterArray, arrayWriterMap, mapWriterArray, mapWriterMap,
      commitElementArray_pos hc, commitElementMap_pos hc, hinit80, hinitA0]

theorem nested_invalid_length_decrements_parent_witness :
    (arrayWriterArray (α := Int) (some 3) LengthArg.nonIntegral []).1 = some 2 ∧
    (mapWriterArray (α := Int) (some 3) 7 LengthArg.nonIntegral []).2.2 =
      Except.error lenErr := by
  have h := nested_invalid_length_decrements_parent 3 (by norm_num)
    LengthArg.nonIntegral (Or.inl rfl) 7 []
  exact ⟨by simpa using h.1, h.2.2.2.2.2.1⟩

end Cbor2
